import Mathlib

/-!
Verification development for the mini-portfolio price-history
synchronization subsystem.

The embedding targets two source files:

* `src/app/api/price-history/sync/route.ts` — the sync route
  (`POST`, `getTradingDays`, `getMissingDates`, `fetchBarsFromAlpaca`,
  `fetchBarsFromYahoo`, `getApiCredentials`, `getTodayDate`).
* `src/lib/db.ts` — the price store
  (`getExistingPriceDates`, `insertPriceHistory`,
  `insertPriceHistoryBatch`, `getAllUniqueTickers`, the
  `price_history` schema with its `UNIQUE(ticker, date)` constraint).

Modelling conventions.

* Calendar dates (ISO `YYYY-MM-DD` strings in the source) are embedded
  as day indices since the Unix epoch, interpreted at the UTC day
  boundary (the route derives date strings via `toISOString`, and the
  server clock is taken to run in UTC so that `getDay`/`toISOString`
  agree).  For ISO date strings of fixed shape, JavaScript's
  lexicographic string order coincides with the numeric order of day
  indices, so `Array.prototype.sort()` and SQL `ORDER BY date` are
  embedded as sorting day indices by `≤`.
* Wall-clock instants (ISO datetime strings / `Date` values) are
  embedded as milliseconds since the Unix epoch; `DATE(ts)` /
  `toISOString().split('T')[0]` become division by the milliseconds
  per day.
* Prices are embedded as rationals (`Rat`); no arithmetic is performed
  on them anywhere in the modelled code, they are pure payload.
* The SQLite table `price_history` is a list of rows.  The
  `INSERT ... ON CONFLICT(ticker, date) DO UPDATE` statement becomes
  `upsertRow`: update the matching row in place, otherwise append.
  `better-sqlite3`'s `result.changes` is `1` both for a fresh insert
  and for the conflict-update arm, which the batch function mirrors.
* Network effects are embedded as oracles carried by the environment:
  the Alpaca endpoint is a function from a request to the list of page
  responses consumed by the pagination loop, and the Yahoo endpoint is
  a function from a request to a single outcome (network failure,
  non-2xx, or a parsed body).
-/

namespace MiniPortfolio

/-- Milliseconds per day; `DATE(...)` truncation on millisecond
timestamps is division by this constant. -/
def msPerDay : Nat := 86400000

/-- A wall-clock instant, milliseconds since the Unix epoch (UTC). -/
abbrev Timestamp := Nat

/-- The UTC calendar day holding a timestamp: the embedding of
`toISOString().split('T')[0]` and of SQL `DATE(...)`. -/
def dayOfTs (t : Timestamp) : Nat := t / msPerDay

/-- Embedding of JavaScript `Date.prototype.getDay` on a UTC-midnight
date: 1970-01-01 (day 0) was a Thursday, hence the offset 4.
`0` is Sunday and `6` is Saturday, as in the source comment. -/
def jsDayOfWeek (d : Nat) : Nat := (d + 4) % 7

/-- Day index of the fixed epoch start `START_DATE = '2026-01-01'`
(20454 days after 1970-01-01; a Thursday). -/
def START_DATE : Nat := 20454

/-- Embedding of `getTodayDate` from the sync route:
`new Date().toISOString().split('T')[0]` at clock instant `now`. -/
def getTodayDate (now : Timestamp) : Nat := dayOfTs now

/-- Embedding of `getTradingDays` from the sync route: walk one day at
a time from `startDate` while `current <= end`, keeping the days whose
`getDay()` is neither 0 (Sunday) nor 6 (Saturday).  The walk visits
exactly the day indices `startDate, startDate+1, ..., endDate`, which
is `List.range' startDate (endDate + 1 - startDate)`; truncated `Nat`
subtraction makes the walk empty when `endDate < startDate`, exactly
as the `while` guard does. -/
def getTradingDays (startDate endDate : Nat) : List Nat :=
  (List.range' startDate (endDate + 1 - startDate)).filter
    (fun d => decide (jsDayOfWeek d ≠ 0 ∧ jsDayOfWeek d ≠ 6))

/-- Embedding of `getMissingDates` from the sync route: keep the dates
of `allDates` that are not in the existing-dates set (the source wraps
the existing dates in a `Set` purely for membership testing). -/
def getMissingDates (allDates : List Nat) (existingDates : List Nat) : List Nat :=
  allDates.filter (fun date => decide (date ∉ existingDates))

/-- A record handed to the price store, as built by the sync route's
`records` array and accepted by `insertPriceHistory(Batch)`:
`vwap`/`trade_count` are nullable (`Option`), volume is not. -/
structure PriceRecord where
  ticker : String
  date : Nat
  open_price : Rat
  high_price : Rat
  low_price : Rat
  close_price : Rat
  volume : Nat
  vwap : Option Rat
  trade_count : Option Nat
deriving Repr, DecidableEq

/-- A stored `price_history` row: the record fields plus the
`created_at` and `fetched_at` columns (the `id` rowid is not modelled;
row identity across an update is witnessed by `created_at`, which the
`ON CONFLICT` arm does not touch). -/
structure PriceRow where
  ticker : String
  date : Nat
  open_price : Rat
  high_price : Rat
  low_price : Rat
  close_price : Rat
  volume : Nat
  vwap : Option Rat
  trade_count : Option Nat
  created_at : Timestamp
  fetched_at : Timestamp
deriving Repr, DecidableEq

/-- The `UNIQUE(ticker, date)` key of a row. -/
def keyOf (x : PriceRow) : String × Nat := (x.ticker, x.date)

/-- Does row `x` sit on key `(tk, d)`? -/
def keyMatches (x : PriceRow) (tk : String) (d : Nat) : Bool :=
  decide (x.ticker = tk ∧ x.date = d)

/-- A freshly inserted row: every column from the record, with
`created_at` and `fetched_at` set to the write instants. -/
def rowOfRecord (r : PriceRecord) (fetched created : Timestamp) : PriceRow :=
  { ticker := r.ticker, date := r.date, open_price := r.open_price,
    high_price := r.high_price, low_price := r.low_price,
    close_price := r.close_price, volume := r.volume, vwap := r.vwap,
    trade_count := r.trade_count, created_at := created, fetched_at := fetched }

/-- The `ON CONFLICT(ticker, date) DO UPDATE` arm: overwrite the data
columns and `fetched_at` with the excluded values, keep `ticker`,
`date` and `created_at`. -/
def updRow (x : PriceRow) (r : PriceRecord) (now : Timestamp) : PriceRow :=
  { x with open_price := r.open_price, high_price := r.high_price,
           low_price := r.low_price, close_price := r.close_price,
           volume := r.volume, vwap := r.vwap,
           trade_count := r.trade_count, fetched_at := now }

/-- One run of the prepared upsert statement of `db.ts` against the
table state: update the row holding the `(ticker, date)` key if one
exists, otherwise append a fresh row. -/
def upsertRow (db : List PriceRow) (r : PriceRecord) (now : Timestamp) : List PriceRow :=
  if db.any (fun x => keyMatches x r.ticker r.date) then
    db.map (fun x => if keyMatches x r.ticker r.date then updRow x r now else x)
  else
    db ++ [rowOfRecord r now now]

/-- Embedding of `insertPriceHistory` from `db.ts` (single-record
upsert; same SQL as the batch statement). -/
def insertPriceHistory (db : List PriceRow) (r : PriceRecord) (now : Timestamp) : List PriceRow :=
  upsertRow db r now

/-- Embedding of `insertPriceHistoryBatch` from `db.ts`: one
transaction running the upsert statement per record, counting the
records whose `result.changes > 0`.  For this statement SQLite reports
`changes = 1` on both the insert and the conflict-update arm, which is
what the literal `1` records. -/
def insertPriceHistoryBatch (db : List PriceRow) (records : List PriceRecord)
    (now : Timestamp) : Nat × List PriceRow :=
  match records with
  | [] => (0, db)
  | item :: rest =>
    let changes : Nat := 1
    let next := insertPriceHistoryBatch (upsertRow db item now) rest now
    ((if changes > 0 then 1 else 0) + next.1, next.2)

/-- Embedding of `getExistingPriceDates` from `db.ts`: dates of rows
for the ticker inside the inclusive range whose `DATE(fetched_at)` is
strictly before `DATE(now)`, ordered by date (`ORDER BY date`). -/
def getExistingPriceDates (db : List PriceRow) (ticker : String)
    (startDate endDate : Nat) (now : Timestamp) : List Nat :=
  List.insertionSort (· ≤ ·)
    ((db.filter (fun r =>
        decide (r.ticker = ticker ∧ startDate ≤ r.date ∧ r.date ≤ endDate ∧
          dayOfTs r.fetched_at < dayOfTs now))).map (fun r => r.date))

/-- `getExistingPriceDates` as a state transformer on the store: the
underlying statement is a `SELECT`, so the table is returned
untouched. -/
def getExistingPriceDatesOp (db : List PriceRow) (ticker : String)
    (startDate endDate : Nat) (now : Timestamp) : List Nat × List PriceRow :=
  (getExistingPriceDates db ticker startDate endDate now, db)

/-- Lexicographic code-point order on character lists — the binary
collation SQLite applies to `ORDER BY ticker`. -/
def charListLe : List Char → List Char → Bool
  | [], _ => true
  | _ :: _, [] => false
  | a :: as, b :: bs =>
    if a.toNat < b.toNat then true
    else if b.toNat < a.toNat then false
    else charListLe as bs

/-- Binary-collation order on strings. -/
def strLe (a b : String) : Bool := charListLe a.data b.data

/-- Embedding of `getAllUniqueTickers` from `db.ts`:
`SELECT DISTINCT ticker FROM holdings ORDER BY ticker` over the
tickers of the holdings table. -/
def getAllUniqueTickers (holdings : List String) : List String :=
  List.insertionSort (fun a b => strLe a b = true) holdings.dedup

/-- First lookup of a `(ticker, date)` row — the read-back used to
state the upsert properties. -/
def findRow (db : List PriceRow) (tk : String) (d : Nat) : Option PriceRow :=
  db.find? (fun x => keyMatches x tk d)

/-- The `UNIQUE(ticker, date)` table invariant: no two rows share a
key. -/
def AtMostOnePerKey (db : List PriceRow) : Prop :=
  (db.map keyOf).Nodup

instance (db : List PriceRow) : Decidable (AtMostOnePerKey db) := by
  unfold AtMostOnePerKey; infer_instance

/-- A store mutation issued through the price-history interface:
either the single-record or the batch upsert, at some write instant. -/
inductive DbOp where
  | single (r : PriceRecord) (now : Timestamp)
  | batch (rs : List PriceRecord) (now : Timestamp)

/-- Apply one mutation to the table. -/
def applyDbOp (db : List PriceRow) : DbOp → List PriceRow
  | .single r now => insertPriceHistory db r now
  | .batch rs now => (insertPriceHistoryBatch db rs now).2

/-- Run a sequence of mutations against the freshly created table. -/
def applyDbOps (ops : List DbOp) : List PriceRow :=
  ops.foldl applyDbOp []

/-- A daily bar in the shape of the route's `AlpacaBar` interface.
`t` is the bar's timestamp; `n` (trade count) and `vw` (vwap) are kept
as `Option` because the route's record builder guards them with
`?? null`, so a bar value may be absent at runtime even though the
TypeScript interface declares plain numbers. -/
structure AlpacaBar where
  t : Timestamp
  o : Rat
  h : Rat
  l : Rat
  c : Rat
  v : Nat
  n : Option Nat
  vw : Option Rat
deriving Repr, DecidableEq

/-- Per-ticker bar map (`Record<string, AlpacaBar[]>`), as an ordered
association list (JavaScript objects preserve insertion order). -/
abbrev BarMap := List (String × List AlpacaBar)

/-- `bars[ticker]` with the route's `|| []` default. -/
def lookupBars (bars : BarMap) (tk : String) : List AlpacaBar :=
  ((bars.find? (fun p => decide (p.1 = tk))).map (fun p => p.2)).getD []

/-- `bars[ticker] = v` object assignment: replace the entry if the key
is present, otherwise add it. -/
def setBars (bars : BarMap) (tk : String) (v : List AlpacaBar) : BarMap :=
  if bars.any (fun p => decide (p.1 = tk)) then
    bars.map (fun p => if p.1 = tk then (p.1, v) else p)
  else
    bars ++ [(tk, v)]

/-- The query parameters `fetchBarsFromAlpaca` puts on every page
request (the `URLSearchParams` block); note the fixed `feed`. -/
structure AlpacaRequestParams where
  symbols : List String
  startDay : Nat
  endDay : Nat
  timeframe : String
  limit : Nat
  adjustment : String
  feed : String
  page_token : Option String
deriving Repr, DecidableEq

/-- The parameter block built by `fetchBarsFromAlpaca` for a page
request: `timeframe: '1Day'`, `limit: '10000'`,
`adjustment: 'split'`, `feed: 'iex'`, plus the continuation token when
present. -/
def alpacaRequestParams (tickers : List String) (startDay endDay : Nat)
    (tok : Option String) : AlpacaRequestParams :=
  { symbols := tickers, startDay := startDay, endDay := endDay,
    timeframe := "1Day", limit := 10000, adjustment := "split",
    feed := "iex", page_token := tok }

/-- One HTTP page response consumed by `fetchBarsFromAlpaca`'s
pagination loop: the `response.ok` flag and status, the error body
text used when not ok, and on success the parsed `bars` map (possibly
absent) and continuation token. -/
structure AlpacaPage where
  ok : Bool
  status : Nat
  errorText : String
  bars : Option BarMap
  next_page_token : Option String

/-- Merge a page's `data.bars` into the accumulator, as the route's
`Object.entries` loop does: push onto an existing entry (note that an
initialized empty array is truthy in JavaScript, so the push branch is
taken whenever the key is present), otherwise adopt the entry. -/
def mergeBars (acc : BarMap) (bs : BarMap) : BarMap :=
  bs.foldl
    (fun a p =>
      if a.any (fun q => decide (q.1 = p.1)) then
        a.map (fun q => if q.1 = p.1 then (q.1, q.2 ++ p.2) else q)
      else
        a ++ [p])
    acc

/-- The pagination loop of `fetchBarsFromAlpaca`, consuming the page
responses in order: a non-ok response throws
`Alpaca API error (status): body`; an ok response is merged and the
loop continues exactly while a `next_page_token` is present.  An empty
response list with a pending token means the network never answered;
the loop is modelled as ending with what was merged so far, and every
theorem below only constrains runs on the responses actually
consumed. -/
def fetchBarsFromAlpacaGo : List AlpacaPage → BarMap → Except String BarMap
  | [], acc => .ok acc
  | p :: rest, acc =>
    if p.ok then
      let acc' := match p.bars with
        | none => acc
        | some bs => mergeBars acc bs
      match p.next_page_token with
      | none => .ok acc'
      | some _ => fetchBarsFromAlpacaGo rest acc'
    else
      .error ("Alpaca API error (" ++ toString p.status ++ "): " ++ p.errorText)

/-- Embedding of `fetchBarsFromAlpaca`: initialize an empty bar list
for every requested ticker, then run the pagination loop over the page
responses the network hands back. -/
def fetchBarsFromAlpaca (tickers : List String) (pages : List AlpacaPage) :
    Except String BarMap :=
  fetchBarsFromAlpacaGo pages (tickers.map (fun t => (t, ([] : List AlpacaBar))))

/-- The `indicators.quote[0]` arrays of a Yahoo chart result; every
slot is nullable. -/
structure YahooQuote where
  open_ : List (Option Rat)
  high : List (Option Rat)
  low : List (Option Rat)
  close : List (Option Rat)
  volume : List (Option Nat)
deriving Repr

/-- One element of `chart.result`: the bar timestamps (Unix seconds;
the source defaults a missing array with `|| []`) and the quote
arrays. -/
structure YahooResult where
  timestamp : Option (List Nat)
  quote : List YahooQuote
deriving Repr

/-- The `chart` member of a Yahoo response body. -/
structure YahooChart where
  result : Option (List YahooResult)
  error : Option String
deriving Repr

/-- A parsed Yahoo chart response body. -/
structure YahooChartResponse where
  chart : YahooChart
deriving Repr

/-- What the network hands `fetchBarsFromYahoo`: a thrown fetch/parse
error, a non-2xx response, or a parsed body. -/
inductive YahooOutcome where
  | fetchFailed
  | httpError (status : Nat)
  | ok (data : YahooChartResponse)

/-- The body of the Yahoo bar-building loop at index `i`: skip the
index when any of open/high/low/close is null (or the arrays are too
short, which reads as `undefined` and also compares `== null`);
otherwise build a bar whose date is the Unix timestamp scaled to
milliseconds, with `v := volume ?? 0` and the literal zeroes the
source writes for trade count and vwap. -/
def yahooBarAt (timestamps : List Nat) (q : YahooQuote) (i : Nat) : Option AlpacaBar :=
  match (q.open_.get? i).getD none, (q.high.get? i).getD none,
        (q.low.get? i).getD none, (q.close.get? i).getD none with
  | some o, some h, some l, some c =>
    some { t := ((timestamps.get? i).getD 0) * 1000, o := o, h := h, l := l, c := c,
           v := ((q.volume.get? i).getD none).getD 0, n := some 0, vw := some 0 }
  | _, _, _, _ => none

/-- Embedding of `fetchBarsFromYahoo`.  Every failure path of the
source returns `[]`: a thrown fetch error (the `catch`), a non-ok
response, a body with `chart.error` set, a null or empty
`chart.result`, and a missing `indicators.quote[0]` (whose property
access throws inside the `try`).  On the success path the loop runs
over `0 ≤ i < timestamps.length`. -/
def fetchBarsFromYahoo : YahooOutcome → List AlpacaBar
  | .fetchFailed => []
  | .httpError _ => []
  | .ok data =>
    if data.chart.error.isSome then []
    else
      match data.chart.result with
      | none => []
      | some [] => []
      | some (result :: _) =>
        let timestamps := result.timestamp.getD []
        match result.quote with
        | [] => []
        | q :: _ =>
          (List.range timestamps.length).filterMap (fun i => yahooBarAt timestamps q i)

/-- Embedding of `getApiCredentials`: missing `ALPACA_API_KEY` or
`ALPACA_SECRET_KEY` throws (the key is checked first). -/
def getApiCredentials (apiKey secretKey : Option String) :
    Except String (String × String) :=
  match apiKey with
  | none => .error "ALPACA_API_KEY environment variable is not set in .env.local"
  | some k =>
    match secretKey with
    | none => .error "ALPACA_SECRET_KEY environment variable is not set in .env.local"
    | some sk => .ok (k, sk)

/-- The ambient world of one `POST` invocation: the two environment
variables, the holdings table (its ticker column), the wall clock, and
the two network oracles.  `alpacaPages` maps an Alpaca range request
to the page responses its pagination loop will consume; `yahoo` maps a
Yahoo range request to its outcome. -/
structure SyncEnv where
  apiKey : Option String
  secretKey : Option String
  holdings : List String
  now : Timestamp
  alpacaPages : List String → Nat → Nat → List AlpacaPage
  yahoo : String → Nat → Nat → YahooOutcome

/-- The JSON envelope of the `POST` response, flattened: the `catch`
branch produces `success = false`, HTTP 500 and `errorMsg`; success
branches produce HTTP 200 with the counters of the source's
`details`. -/
structure SyncResponse where
  success : Bool
  status : Nat
  synced : Nat
  recordsFound : Nat
  tickersProcessed : Nat
  yahooTickers : List String
  message : String
  errorMsg : Option String
deriving Repr, DecidableEq

/-- Observable result of one `POST` run: the response, the table state
after the run, and the request traces (one entry in `alpacaCalls` per
`fetchBarsFromAlpaca` range query, one entry in `yahooCalls` per
`fetchBarsFromYahoo` call).  `primaryBars` is what the primary fetch
returned, `barsUsed` the map after fallback merging, `records` the
filtered batch handed to the store. -/
structure SyncResult where
  resp : SyncResponse
  db : List PriceRow
  alpacaCalls : List (List String × Nat × Nat)
  yahooCalls : List String
  primaryBars : BarMap
  barsUsed : BarMap
  records : List PriceRecord

/-- The fatal-error envelope produced by the route's `catch`: nothing
persisted, no further work. -/
def syncFailResult (db : List PriceRow) (msg : String) : SyncResult :=
  { resp := { success := false, status := 500, synced := 0, recordsFound := 0,
              tickersProcessed := 0, yahooTickers := [], message := "",
              errorMsg := some msg },
    db := db, alpacaCalls := [], yahooCalls := [],
    primaryBars := [], barsUsed := [], records := [] }

/-- The zero-work success envelope (`No tickers found in database` /
`All price data is up to date`). -/
def syncEmptyResult (db : List PriceRow) (msg : String) : SyncResult :=
  { resp := { success := true, status := 200, synced := 0, recordsFound := 0,
              tickersProcessed := 0, yahooTickers := [], message := msg,
              errorMsg := none },
    db := db, alpacaCalls := [], yahooCalls := [],
    primaryBars := [], barsUsed := [], records := [] }

/-- A ticker's own computed gap in the `POST` handler: the trading
days of `[START_DATE, today]` minus the ticker's existing dates. -/
def gapOf (env : SyncEnv) (db : List PriceRow) (ticker : String) : List Nat :=
  getMissingDates (getTradingDays START_DATE (getTodayDate env.now))
    (getExistingPriceDates db ticker START_DATE (getTodayDate env.now) env.now)

/-- The per-ticker gap computation of the `POST` handler: each tracked
ticker paired with its gap; only tickers with a non-empty gap are kept
(`tickersToSync`). -/
def tickersToSyncOf (env : SyncEnv) (db : List PriceRow) : List (String × List Nat) :=
  (getAllUniqueTickers env.holdings).filterMap (fun ticker =>
    if (gapOf env db ticker).isEmpty then none
    else some (ticker, gapOf env db ticker))

/-- `tickersNeedingData`: the gapped tickers. -/
def tickersNeedingDataOf (env : SyncEnv) (db : List PriceRow) : List String :=
  (tickersToSyncOf env db).map (fun p => p.1)

/-- `allMissingDates`: every gapped date of every gapped ticker. -/
def allMissingDatesOf (env : SyncEnv) (db : List PriceRow) : List Nat :=
  (tickersToSyncOf env db).flatMap (fun p => p.2)

/-- `earliestMissing = allMissingDates.sort()[0]`: lexicographic sort
of ISO dates is numeric sort of day indices, and index 0 of the sorted
array is its head. -/
def earliestMissingOf (env : SyncEnv) (db : List PriceRow) : Nat :=
  (List.insertionSort (· ≤ ·) (allMissingDatesOf env db)).headD 0

/-- The one primary range query the handler issues: all gapped
tickers, from the shared earliest missing date through today. -/
def primaryFetchOf (env : SyncEnv) (db : List PriceRow) : Except String BarMap :=
  fetchBarsFromAlpaca (tickersNeedingDataOf env db)
    (env.alpacaPages (tickersNeedingDataOf env db) (earliestMissingOf env db)
      (getTodayDate env.now))

/-- Accumulator of the Yahoo fallback loop: the evolving bar map, the
`yahooTickersFetched` list, and the trace of calls made. -/
structure YahooAcc where
  bars : BarMap
  fetched : List String
  calls : List String

/-- One iteration of the fallback loop for ticker `tk`: always one
Yahoo call; only a non-empty result replaces the ticker's bars and is
recorded in `yahooTickersFetched`. -/
def yahooStep (env : SyncEnv) (startDay endDay : Nat) (acc : YahooAcc)
    (tk : String) : YahooAcc :=
  let yahooBars := fetchBarsFromYahoo (env.yahoo tk startDay endDay)
  { bars := if yahooBars.isEmpty then acc.bars else setBars acc.bars tk yahooBars,
    fetched := if yahooBars.isEmpty then acc.fetched else acc.fetched ++ [tk],
    calls := acc.calls ++ [tk] }

/-- The record-building double loop of the handler: for each gapped
ticker, take its bars (`bars[ticker] || []`), extract each bar's date
from its timestamp, and keep exactly the bars whose date lies in the
ticker's own missing-date set, mapped onto store records with
`vwap := bar.vw ?? null` and `trade_count := bar.n ?? null`. -/
def recordOfBar (tk : String) (date : Nat) (bar : AlpacaBar) : PriceRecord :=
  { ticker := tk, date := date, open_price := bar.o, high_price := bar.h,
    low_price := bar.l, close_price := bar.c, volume := bar.v,
    vwap := bar.vw, trade_count := bar.n }

/-- The filtered record batch for the gapped tickers over a bar map. -/
def recordsOf (tickersToSync : List (String × List Nat)) (bars : BarMap) :
    List PriceRecord :=
  tickersToSync.flatMap (fun p =>
    (lookupBars bars p.1).filterMap (fun bar =>
      if dayOfTs bar.t ∈ p.2 then some (recordOfBar p.1 (dayOfTs bar.t) bar)
      else none))

/-- The handler's tail after a successful primary fetch `bars0`:
fallback loop over the zero-bar tickers, record filtering, one batch
upsert, success envelope. -/
def syncResultOk (env : SyncEnv) (db : List PriceRow) (bars0 : BarMap) : SyncResult :=
  let startDay := earliestMissingOf env db
  let endDay := getTodayDate env.now
  let tickersToSync := tickersToSyncOf env db
  let tickersNeedingData := tickersToSync.map (fun p => p.1)
  let tickersWithNoData :=
    tickersNeedingData.filter (fun tk => (lookupBars bars0 tk).isEmpty)
  let yres := tickersWithNoData.foldl (yahooStep env startDay endDay)
    { bars := bars0, fetched := [], calls := [] }
  let records := recordsOf tickersToSync yres.bars
  let ins := insertPriceHistoryBatch db records env.now
  { resp := { success := true, status := 200, synced := ins.1,
              recordsFound := records.length,
              tickersProcessed := tickersNeedingData.length,
              yahooTickers := yres.fetched,
              message := "Successfully synced", errorMsg := none },
    db := ins.2,
    alpacaCalls := [(tickersNeedingData, startDay, endDay)],
    yahooCalls := yres.calls,
    primaryBars := bars0, barsUsed := yres.bars, records := records }

/-- The result when the primary fetch throws: the one range query was
issued, the error is caught by the route's `catch`, nothing is
persisted. -/
def syncAlpacaErrorResult (env : SyncEnv) (db : List PriceRow) (e : String) :
    SyncResult :=
  { resp := { success := false, status := 500, synced := 0, recordsFound := 0,
              tickersProcessed := 0, yahooTickers := [], message := "",
              errorMsg := some e },
    db := db,
    alpacaCalls := [(tickersNeedingDataOf env db, earliestMissingOf env db,
                     getTodayDate env.now)],
    yahooCalls := [], primaryBars := [], barsUsed := [], records := [] }

/-- Embedding of the `POST` handler (`runSync`): credentials first,
then the empty-ticker no-op, the gap computation, the up-to-date
no-op, the single primary range query, and on its success the fallback
and upsert tail. -/
def runSync (env : SyncEnv) (db : List PriceRow) : SyncResult :=
  match getApiCredentials env.apiKey env.secretKey with
  | .error e => syncFailResult db e
  | .ok _ =>
    if (getAllUniqueTickers env.holdings).isEmpty then
      syncEmptyResult db "No tickers found in database"
    else if (tickersToSyncOf env db).isEmpty then
      syncEmptyResult db "All price data is up to date"
    else
      match primaryFetchOf env db with
      | .error e => syncAlpacaErrorResult env db e
      | .ok bars0 => syncResultOk env db bars0

/-! Statement helpers (not from the source): the last record of a
batch on a given key, and a row with its `fetched_at` column blanked,
used to state read-back equality up to the fetch timestamp. -/

/-- The last record of a batch carrying the key `(tk, d)` — the one
whose values win under last-write-wins upserting. -/
def lastRecOf : List PriceRecord → String → Nat → Option PriceRecord
  | [], _, _ => none
  | r :: rs, tk, d =>
    match lastRecOf rs tk d with
    | some x => some x
    | none => if r.ticker = tk ∧ r.date = d then some r else none

/-- A row with its `fetched_at` column blanked: two rows agree on
every other column iff their `stripFetched` images are equal. -/
def stripFetched (x : PriceRow) : PriceRow :=
  { x with fetched_at := 0 }

/-! Concrete fixtures used by the witness theorems. -/

/-- A concrete price record on key `("A", 20454)`. -/
def wRecord : PriceRecord :=
  { ticker := "A", date := 20454, open_price := 1, high_price := 2,
    low_price := 1, close_price := 2, volume := 10, vwap := none,
    trade_count := none }

/-- A concrete stored row on key `("A", 20455)` fetched during day
20455. -/
def wRow : PriceRow :=
  { ticker := "A", date := 20455, open_price := 3, high_price := 4,
    low_price := 2, close_price := 4, volume := 7, vwap := some 3,
    trade_count := some 2, created_at := 20455 * 86400000 + 100,
    fetched_at := 20455 * 86400000 + 500 }

/-- A bar timestamped on Monday 2026-01-05 (day 20458 is a Monday;
day 20454, 2026-01-01, is a Thursday — this bar sits on day 20454). -/
def wBarThu : AlpacaBar :=
  { t := 86400000 * 20454 + 18000000, o := 1, h := 1, l := 1, c := 1,
    v := 5, n := some 3, vw := some 1 }

/-- A bar timestamped on Saturday 2026-01-03 (day 20456), never part
of a trading-day gap. -/
def wBarSat : AlpacaBar :=
  { t := 86400000 * 20456, o := 2, h := 2, l := 2, c := 2, v := 6,
    n := some 4, vw := some 2 }

/-- A successful single Alpaca page carrying bars for ticker `A`. -/
def wPageOk : AlpacaPage :=
  { ok := true, status := 200, errorText := "",
    bars := some [("A", [wBarThu, wBarSat])], next_page_token := none }

/-- A non-2xx Alpaca page. -/
def wPageErr : AlpacaPage :=
  { ok := false, status := 403, errorText := "forbidden", bars := none,
    next_page_token := none }

/-- A sync environment with one tracked ticker, an empty store, and a
primary provider answering with `wPageOk`; invoked on day 20458. -/
def wEnv : SyncEnv :=
  { apiKey := some "k", secretKey := some "s", holdings := ["A"],
    now := 86400000 * 20458 + 1,
    alpacaPages := fun _ _ _ => [wPageOk],
    yahoo := fun _ _ _ => .fetchFailed }

/-- A sync environment with two tracked tickers where the primary
provider only has data for `A` and the fallback fails for `B`. -/
def wEnvTwo : SyncEnv :=
  { apiKey := some "k", secretKey := some "s", holdings := ["A", "B"],
    now := 86400000 * 20458 + 1,
    alpacaPages := fun _ _ _ =>
      [{ ok := true, status := 200, errorText := "",
         bars := some [("A", [wBarThu])], next_page_token := none }],
    yahoo := fun _ _ _ => .httpError 404 }

/-- A sync environment whose primary provider answers non-2xx. -/
def wEnvErr : SyncEnv :=
  { apiKey := some "k", secretKey := some "s", holdings := ["A"],
    now := 86400000 * 20458 + 1,
    alpacaPages := fun _ _ _ => [wPageErr],
    yahoo := fun _ _ _ => .fetchFailed }

/-- A sync environment with no API key and an empty holdings table. -/
def wEnvNoKey : SyncEnv :=
  { apiKey := none, secretKey := some "s", holdings := [],
    now := 86400000 * 20458 + 1,
    alpacaPages := fun _ _ _ => [],
    yahoo := fun _ _ _ => .fetchFailed }

/-- A parsed Yahoo body with one complete bar at 2026-01-01 whose
volume slot is null. -/
def wYahooData : YahooChartResponse :=
  { chart := { result := some [{ timestamp := some [1767225600],
                                 quote := [{ open_ := [some 10], high := [some 12],
                                             low := [some 9], close := [some 11],
                                             volume := [none] }] }],
               error := none } }

/-- The bar `fetchBarsFromYahoo` builds from `wYahooData`. -/
def wYahooBar : AlpacaBar :=
  { t := 1767225600000, o := 10, h := 12, l := 9, c := 11, v := 0,
    n := some 0, vw := some 0 }

/-! ## Helper lemmas about the price store -/

theorem keyMatches_iff {x : PriceRow} {tk : String} {d : Nat} :
    keyMatches x tk d = true ↔ (x.ticker = tk ∧ x.date = d) := by
  simp [keyMatches]

theorem keyMatches_updRow (x : PriceRow) (r : PriceRecord) (now : Timestamp)
    (tk : String) (d : Nat) :
    keyMatches (updRow x r now) tk d = keyMatches x tk d := rfl

theorem findRow_upsertRow (db : List PriceRow) (r : PriceRecord) (now : Timestamp)
    (tk : String) (d : Nat) :
    findRow (upsertRow db r now) tk d =
      if r.ticker = tk ∧ r.date = d then
        match findRow db tk d with
        | some x => some (updRow x r now)
        | none => some (rowOfRecord r now now)
      else findRow db tk d := by
  unfold upsertRow findRow
  by_cases hany : db.any (fun x => keyMatches x r.ticker r.date) = true
  · rw [if_pos hany]
    have hpg : ((fun x => keyMatches x tk d) ∘
        (fun x => if keyMatches x r.ticker r.date then updRow x r now else x))
        = (fun x => keyMatches x tk d) := by
      funext x
      by_cases hx : keyMatches x r.ticker r.date <;>
        simp [Function.comp, hx, keyMatches_updRow]
    rw [List.find?_map, hpg]
    by_cases hk : r.ticker = tk ∧ r.date = d
    · rw [if_pos hk]
      have hsome : (List.find? (fun x => keyMatches x tk d) db).isSome = true := by
        rw [List.find?_isSome]
        obtain ⟨x, hxmem, hx⟩ := List.any_eq_true.mp hany
        exact ⟨x, hxmem, by rwa [hk.1, hk.2] at hx⟩
      obtain ⟨x, hx⟩ := Option.isSome_iff_exists.mp hsome
      rw [hx]
      have hpx := List.find?_some hx
      have hxr : keyMatches x r.ticker r.date = true := by rw [hk.1, hk.2]; exact hpx
      simp [hxr]
    · rw [if_neg hk]
      cases hfind : List.find? (fun x => keyMatches x tk d) db with
      | none => rfl
      | some x =>
        have hpx := List.find?_some hfind
        simp only [keyMatches_iff] at hpx
        have hxr : keyMatches x r.ticker r.date = false := by
          apply Bool.eq_false_iff.mpr
          intro hcon
          rw [keyMatches_iff] at hcon
          exact hk ⟨hcon.1.symm.trans hpx.1, hcon.2.symm.trans hpx.2⟩
        simp [hxr]
  · rw [if_neg hany]
    rw [List.find?_append]
    by_cases hk : r.ticker = tk ∧ r.date = d
    · rw [if_pos hk]
      have hnone : List.find? (fun x => keyMatches x tk d) db = none := by
        rw [List.find?_eq_none]
        intro x hx hcon
        apply hany
        apply List.any_eq_true.mpr
        exact ⟨x, hx, by rwa [hk.1, hk.2]⟩
      rw [hnone]
      have hmatch : keyMatches (rowOfRecord r now now) tk d = true :=
        keyMatches_iff.mpr ⟨hk.1, hk.2⟩
      simp [List.find?, hmatch]
    · rw [if_neg hk]
      have hmatch : keyMatches (rowOfRecord r now now) tk d = false := by
        apply Bool.eq_false_iff.mpr
        intro hcon
        rw [keyMatches_iff] at hcon
        exact hk ⟨hcon.1, hcon.2⟩
      simp [List.find?, hmatch]

theorem updRow_updRow (x : PriceRow) (r1 r2 : PriceRecord) (t1 t2 : Timestamp) :
    updRow (updRow x r1 t1) r2 t2 = updRow x r2 t2 := rfl

theorem updRow_rowOfRecord {r1 r2 : PriceRecord} (t t' : Timestamp)
    (h1 : r1.ticker = r2.ticker) (h2 : r1.date = r2.date) :
    updRow (rowOfRecord r1 t t) r2 t' = rowOfRecord r2 t' t := by
  simp [updRow, rowOfRecord, h1, h2]

theorem lastRecOf_key :
    ∀ (rs : List PriceRecord) (tk : String) (d : Nat) (r : PriceRecord),
      lastRecOf rs tk d = some r → r.ticker = tk ∧ r.date = d := by
  intro rs
  induction rs with
  | nil => intro tk d r h; simp [lastRecOf] at h
  | cons r0 rs ih =>
    intro tk d r h
    unfold lastRecOf at h
    cases hl : lastRecOf rs tk d with
    | some x =>
      rw [hl] at h
      injection h with h'
      subst h'
      exact ih tk d _ hl
    | none =>
      rw [hl] at h
      by_cases hcond : r0.ticker = tk ∧ r0.date = d
      · rw [if_pos hcond] at h
        injection h with h'
        subst h'
        exact hcond
      · rw [if_neg hcond] at h
        exact absurd h (by simp)

theorem insertPriceHistoryBatch_snd_cons (db : List PriceRow) (r : PriceRecord)
    (rs : List PriceRecord) (now : Timestamp) :
    (insertPriceHistoryBatch db (r :: rs) now).2
      = (insertPriceHistoryBatch (upsertRow db r now) rs now).2 := rfl

theorem insertPriceHistoryBatch_fst :
    ∀ (rs : List PriceRecord) (db : List PriceRow) (now : Timestamp),
      (insertPriceHistoryBatch db rs now).1 = rs.length := by
  intro rs
  induction rs with
  | nil => intro db now; rfl
  | cons r rs ih =>
    intro db now
    show (if (1:Nat) > 0 then 1 else 0)
        + (insertPriceHistoryBatch (upsertRow db r now) rs now).1 = rs.length + 1
    rw [show (if (1:Nat) > 0 then 1 else 0) = 1 from rfl, ih]
    omega

theorem findRow_insertPriceHistoryBatch :
    ∀ (rs : List PriceRecord) (db : List PriceRow) (now : Timestamp)
      (tk : String) (d : Nat),
      findRow ((insertPriceHistoryBatch db rs now).2) tk d =
        match lastRecOf rs tk d with
        | some r =>
          some (match findRow db tk d with
                | some x => updRow x r now
                | none => rowOfRecord r now now)
        | none => findRow db tk d := by
  intro rs
  induction rs with
  | nil => intro db now tk d; rfl
  | cons r rs ih =>
    intro db now tk d
    rw [insertPriceHistoryBatch_snd_cons, ih, findRow_upsertRow]
    simp only [lastRecOf]
    cases hl : lastRecOf rs tk d with
    | none =>
      by_cases hk : r.ticker = tk ∧ r.date = d
      · simp only [if_pos hk]
        cases findRow db tk d <;> rfl
      · simp only [if_neg hk]
    | some r' =>
      have hkey := lastRecOf_key rs tk d r' hl
      by_cases hk : r.ticker = tk ∧ r.date = d
      · simp only [if_pos hk]
        cases hdb : findRow db tk d with
        | some x => simp [updRow_updRow]
        | none =>
          simp [updRow_rowOfRecord now now
            (hk.1.trans hkey.1.symm) (hk.2.trans hkey.2.symm)]
      · simp only [if_neg hk]

theorem map_keyOf_upsertRow_of_any (db : List PriceRow) (r : PriceRecord)
    (now : Timestamp)
    (hany : db.any (fun x => keyMatches x r.ticker r.date) = true) :
    (upsertRow db r now).map keyOf = db.map keyOf := by
  unfold upsertRow
  rw [if_pos hany, List.map_map]
  have hcomp : keyOf ∘ (fun x => if keyMatches x r.ticker r.date then updRow x r now else x)
      = keyOf := by
    funext x
    by_cases hx : keyMatches x r.ticker r.date <;>
      simp [Function.comp, hx, keyOf, updRow]
  rw [hcomp]

theorem AtMostOnePerKey_upsertRow (db : List PriceRow) (r : PriceRecord)
    (now : Timestamp) (h : AtMostOnePerKey db) :
    AtMostOnePerKey (upsertRow db r now) := by
  unfold AtMostOnePerKey at *
  by_cases hany : db.any (fun x => keyMatches x r.ticker r.date) = true
  · rw [map_keyOf_upsertRow_of_any db r now hany]
    exact h
  · unfold upsertRow
    rw [if_neg hany, List.map_append, List.nodup_append]
    refine ⟨h, List.nodup_singleton _, ?_⟩
    intro k hk1 hk2
    simp only [List.map_cons, List.map_nil, List.mem_singleton] at hk2
    obtain ⟨x, hx, hkx⟩ := List.mem_map.mp hk1
    apply hany
    apply List.any_eq_true.mpr
    refine ⟨x, hx, keyMatches_iff.mpr ?_⟩
    have : keyOf x = (r.ticker, r.date) := by
      rw [hkx, hk2]
      rfl
    exact ⟨congrArg Prod.fst this, congrArg Prod.snd this⟩

theorem AtMostOnePerKey_batch :
    ∀ (rs : List PriceRecord) (db : List PriceRow) (now : Timestamp),
      AtMostOnePerKey db → AtMostOnePerKey ((insertPriceHistoryBatch db rs now).2) := by
  intro rs
  induction rs with
  | nil => intro db now h; exact h
  | cons r rs ih =>
    intro db now h
    rw [insertPriceHistoryBatch_snd_cons]
    exact ih _ now (AtMostOnePerKey_upsertRow db r now h)

theorem AtMostOnePerKey_applyDbOp (db : List PriceRow) (op : DbOp)
    (h : AtMostOnePerKey db) : AtMostOnePerKey (applyDbOp db op) := by
  cases op with
  | single r now => exact AtMostOnePerKey_upsertRow db r now h
  | batch rs now => exact AtMostOnePerKey_batch rs db now h

theorem AtMostOnePerKey_foldl :
    ∀ (ops : List DbOp) (db : List PriceRow),
      AtMostOnePerKey db → AtMostOnePerKey (ops.foldl applyDbOp db) := by
  intro ops
  induction ops with
  | nil => intro db h; exact h
  | cons op ops ih =>
    intro db h
    exact ih _ (AtMostOnePerKey_applyDbOp db op h)

/-! ## Claim theorems for the price store -/

/-- C7: after any sequence of single or batch price-history upserts
starting from the freshly created table, the store holds at most one
row per `(ticker, date)` key; and a write that conflicts on an
existing key leaves the key multiset and the row count unchanged and
replaces the conflicting row's fields (refreshing `fetched_at`)
instead of adding a second row or rejecting the write. -/
theorem claim_C7_unique_key_invariant :
    (∀ ops : List DbOp, AtMostOnePerKey (applyDbOps ops))
    ∧ (∀ (db : List PriceRow) (r : PriceRecord) (now : Timestamp),
        db.any (fun x => keyMatches x r.ticker r.date) = true →
          (upsertRow db r now).map keyOf = db.map keyOf
          ∧ (upsertRow db r now).length = db.length
          ∧ findRow (upsertRow db r now) r.ticker r.date
              = (findRow db r.ticker r.date).map (fun x => updRow x r now)) := by
  constructor
  · intro ops
    unfold applyDbOps
    exact AtMostOnePerKey_foldl ops [] (by simp [AtMostOnePerKey])
  · intro db r now hany
    refine ⟨map_keyOf_upsertRow_of_any db r now hany, ?_, ?_⟩
    · unfold upsertRow
      rw [if_pos hany]
      exact List.length_map _ _
    · rw [findRow_upsertRow, if_pos ⟨rfl, rfl⟩]
      have hsome : (findRow db r.ticker r.date).isSome = true := by
        unfold findRow
        rw [List.find?_isSome]
        obtain ⟨x, hx, hpx⟩ := List.any_eq_true.mp hany
        exact ⟨x, hx, hpx⟩
      obtain ⟨x, hx⟩ := Option.isSome_iff_exists.mp hsome
      rw [hx]
      rfl

/-- Witness for C7: a batch upsert on the fresh table keeps the key
invariant, and a single upsert conflicting with a stored row on key
`("A", 20454)` replaces in place. -/
theorem claim_C7_witness :
    AtMostOnePerKey (applyDbOps [DbOp.batch [wRecord] 3])
    ∧ ((upsertRow [rowOfRecord wRecord 3 3] wRecord 9).map keyOf
          = [rowOfRecord wRecord 3 3].map keyOf
        ∧ (upsertRow [rowOfRecord wRecord 3 3] wRecord 9).length
            = [rowOfRecord wRecord 3 3].length
        ∧ findRow (upsertRow [rowOfRecord wRecord 3 3] wRecord 9) wRecord.ticker wRecord.date
            = (findRow [rowOfRecord wRecord 3 3] wRecord.ticker wRecord.date).map
                (fun x => updRow x wRecord 9)) :=
  ⟨claim_C7_unique_key_invariant.1 [DbOp.batch [wRecord] 3],
   claim_C7_unique_key_invariant.2 [rowOfRecord wRecord 3 3] wRecord 9 (by decide)⟩

/-- C6 (amended): upserting the same batch twice yields, for every
`(ticker, date)` key, a read-back equal to the one-upsert read-back in
every column except `fetched_at`, which is refreshed to the second
upsert's write time; the two stored states agree exactly when the two
write timestamps coincide. -/
theorem claim_C6_upsert_idempotent_amended (db : List PriceRow)
    (rs : List PriceRecord) (t1 t2 : Timestamp) (tk : String) (d : Nat) :
    (findRow (insertPriceHistoryBatch (insertPriceHistoryBatch db rs t1).2 rs t2).2 tk d).map
        stripFetched
      = (findRow (insertPriceHistoryBatch db rs t1).2 tk d).map stripFetched
    ∧ (t1 = t2 →
        findRow (insertPriceHistoryBatch (insertPriceHistoryBatch db rs t1).2 rs t2).2 tk d
          = findRow (insertPriceHistoryBatch db rs t1).2 tk d) := by
  rw [findRow_insertPriceHistoryBatch rs _ t2 tk d,
      findRow_insertPriceHistoryBatch rs db t1 tk d]
  cases hl : lastRecOf rs tk d with
  | none => exact ⟨rfl, fun _ => rfl⟩
  | some r =>
    cases hdb : findRow db tk d with
    | some x =>
      constructor
      · simp [updRow_updRow, stripFetched, updRow]
      · intro ht
        subst ht
        simp [updRow_updRow]
    | none =>
      constructor
      · simp [stripFetched, updRow, rowOfRecord]
      · intro ht
        subst ht
        simp [updRow, rowOfRecord]

/-- Witness for C6: the amended idempotence at a concrete batch with
coinciding write timestamps. -/
theorem claim_C6_witness :
    (findRow (insertPriceHistoryBatch (insertPriceHistoryBatch [] [wRecord] 5).2 [wRecord] 5).2
        "A" 20454).map stripFetched
      = (findRow (insertPriceHistoryBatch [] [wRecord] 5).2 "A" 20454).map stripFetched
    ∧ findRow (insertPriceHistoryBatch (insertPriceHistoryBatch [] [wRecord] 5).2 [wRecord] 5).2
        "A" 20454
      = findRow (insertPriceHistoryBatch [] [wRecord] 5).2 "A" 20454 :=
  ⟨(claim_C6_upsert_idempotent_amended [] [wRecord] 5 5 "A" 20454).1,
   (claim_C6_upsert_idempotent_amended [] [wRecord] 5 5 "A" 20454).2 rfl⟩

/-- Counterexample for C6 as stated: upserting the batch `[wRecord]`
a second time at a later wall-clock instant changes the stored row —
its `fetched_at` column is refreshed — so the read-back after the
second upsert is not field-equal to the read-back after the first. -/
theorem claim_C6_counterexample :
    (findRow (insertPriceHistoryBatch [] [wRecord] 0).2 "A" 20454).map
        (fun x => x.fetched_at) = some 0
    ∧ (findRow (insertPriceHistoryBatch (insertPriceHistoryBatch [] [wRecord] 0).2
          [wRecord] 86400000).2 "A" 20454).map (fun x => x.fetched_at) = some 86400000
    ∧ (insertPriceHistoryBatch (insertPriceHistoryBatch [] [wRecord] 0).2
          [wRecord] 86400000).2 ≠ (insertPriceHistoryBatch [] [wRecord] 0).2 := by
  decide

/-- C8: `getTradingDays` returns exactly the day indices of the
inclusive range whose weekday is neither Sunday (0) nor Saturday (6),
in strictly increasing order, and is empty when the start date is
after the end date. -/
theorem claim_C8_trading_days (s e : Nat) :
    (∀ d, d ∈ getTradingDays s e ↔
        (s ≤ d ∧ d ≤ e ∧ jsDayOfWeek d ≠ 0 ∧ jsDayOfWeek d ≠ 6))
    ∧ List.Sorted (· < ·) (getTradingDays s e)
    ∧ (e < s → getTradingDays s e = []) := by
  refine ⟨fun d => ?_, ?_, fun h => ?_⟩
  · simp only [getTradingDays, List.mem_filter, List.mem_range'_1, decide_eq_true_eq]
    constructor
    · rintro ⟨⟨h1, h2⟩, h3, h4⟩
      exact ⟨h1, by omega, h3, h4⟩
    · rintro ⟨h1, h2, h3, h4⟩
      exact ⟨⟨h1, by omega⟩, h3, h4⟩
  · exact List.Pairwise.filter _ (List.pairwise_lt_range' s (e + 1 - s))
  · have hz : e + 1 - s = 0 := by omega
    simp [getTradingDays, hz]

/-- Witness for C8: an inverted range yields the empty sequence. -/
theorem claim_C8_witness : getTradingDays 5 3 = [] :=
  (claim_C8_trading_days 5 3).2.2 (by omega)

/-- C2: a stored row whose `fetched_at` falls on the query's calendar
day is excluded from `getExistingPriceDates` (and hence reported
missing by the gap detector), is included when queried on the
following calendar day, and the query itself returns the store
untouched. -/
theorem claim_C2_same_day_fetch_excluded (db : List PriceRow) (row : PriceRow)
    (t : String) (s e : Nat) (q1 q2 : Timestamp)
    (hinv : AtMostOnePerKey db) (hrow : row ∈ db) (ht : row.ticker = t)
    (hs : s ≤ row.date) (he : row.date ≤ e)
    (hfetch : dayOfTs row.fetched_at = dayOfTs q1)
    (hnext : dayOfTs q2 = dayOfTs q1 + 1) :
    row.date ∉ getExistingPriceDates db t s e q1
    ∧ (∀ days : List Nat, row.date ∈ days →
        row.date ∈ getMissingDates days (getExistingPriceDates db t s e q1))
    ∧ row.date ∈ getExistingPriceDates db t s e q2
    ∧ getExistingPriceDatesOp db t s e q1 = (getExistingPriceDates db t s e q1, db) := by
  have hexcl : row.date ∉ getExistingPriceDates db t s e q1 := by
    intro hmem
    unfold getExistingPriceDates at hmem
    rw [List.mem_insertionSort] at hmem
    obtain ⟨r', hr'mem, hr'date⟩ := List.mem_map.mp hmem
    rw [List.mem_filter] at hr'mem
    obtain ⟨hr'db, hr'p⟩ := hr'mem
    simp only [decide_eq_true_eq] at hr'p
    obtain ⟨hp1, hp2, hp3, hp4⟩ := hr'p
    have hkey : keyOf r' = keyOf row := by
      simp [keyOf, hp1, ht, hr'date]
    have heq : r' = row := List.inj_on_of_nodup_map hinv hr'db hrow hkey
    rw [heq] at hp4
    omega
  refine ⟨hexcl, ?_, ?_, rfl⟩
  · intro days hd
    unfold getMissingDates
    rw [List.mem_filter]
    exact ⟨hd, by simpa using hexcl⟩
  · unfold getExistingPriceDates
    rw [List.mem_insertionSort]
    apply List.mem_map.mpr
    refine ⟨row, ?_, rfl⟩
    rw [List.mem_filter]
    refine ⟨hrow, ?_⟩
    simp only [decide_eq_true_eq]
    exact ⟨ht, hs, he, by omega⟩

/-- Witness for C2: the row `wRow`, fetched during day 20455, is
excluded by a query later that day and included by a query on day
20456, with the store unchanged. -/
theorem claim_C2_witness :
    (20455 : Nat) ∉ getExistingPriceDates [wRow] "A" 20450 20460 (20455 * 86400000 + 900)
    ∧ (20455 : Nat) ∈ getExistingPriceDates [wRow] "A" 20450 20460 (20456 * 86400000 + 5)
    ∧ getExistingPriceDatesOp [wRow] "A" 20450 20460 (20455 * 86400000 + 900)
        = (getExistingPriceDates [wRow] "A" 20450 20460 (20455 * 86400000 + 900), [wRow]) := by
  have h := claim_C2_same_day_fetch_excluded [wRow] wRow "A" 20450 20460
    (20455 * 86400000 + 900) (20456 * 86400000 + 5)
    (by decide) (by decide) rfl (by decide) (by decide) (by decide) (by decide)
  exact ⟨h.1, h.2.2.1, h.2.2.2⟩

/-! ## Helper lemmas about the sync orchestrator -/

theorem mem_tickersToSyncOf {env : SyncEnv} {db : List PriceRow}
    {tk : String} {gap : List Nat} :
    (tk, gap) ∈ tickersToSyncOf env db ↔
      (tk ∈ getAllUniqueTickers env.holdings ∧ gap = gapOf env db tk ∧ gap ≠ []) := by
  unfold tickersToSyncOf
  rw [List.mem_filterMap]
  constructor
  · rintro ⟨tk', htk', hres⟩
    by_cases hE : (gapOf env db tk').isEmpty = true
    · rw [if_pos hE] at hres
      exact absurd hres (by simp)
    · rw [if_neg hE] at hres
      injection hres with h'
      rw [Prod.mk.injEq] at h'
      obtain ⟨rfl, h2⟩ := h'
      refine ⟨htk', h2.symm, ?_⟩
      rw [← h2]
      exact List.isEmpty_eq_false.mp (Bool.eq_false_iff.mpr hE)
  · rintro ⟨h1, h2, h3⟩
    refine ⟨tk, h1, ?_⟩
    have hE : (gapOf env db tk).isEmpty = false :=
      List.isEmpty_eq_false.mpr (h2 ▸ h3)
    rw [if_neg (by simp [hE]), h2]

theorem tickersToSyncOf_eq_nil_of_no_tickers {env : SyncEnv} {db : List PriceRow}
    (h : getAllUniqueTickers env.holdings = []) : tickersToSyncOf env db = [] := by
  unfold tickersToSyncOf
  rw [h]
  rfl

theorem runSync_eq_ok (env : SyncEnv) (db : List PriceRow) (bars0 : BarMap)
    (hk : env.apiKey.isSome = true) (hsk : env.secretKey.isSome = true)
    (hg : tickersToSyncOf env db ≠ [])
    (hok : primaryFetchOf env db = .ok bars0) :
    runSync env db = syncResultOk env db bars0 := by
  obtain ⟨k, hk'⟩ := Option.isSome_iff_exists.mp hk
  obtain ⟨sk, hsk'⟩ := Option.isSome_iff_exists.mp hsk
  have h1 : (getAllUniqueTickers env.holdings).isEmpty = false := by
    apply Bool.eq_false_iff.mpr
    intro hE
    exact hg (tickersToSyncOf_eq_nil_of_no_tickers (List.isEmpty_iff.mp hE))
  have h2 : (tickersToSyncOf env db).isEmpty = false :=
    List.isEmpty_eq_false.mpr hg
  unfold runSync
  rw [hk', hsk']
  simp only [getApiCredentials, h1, h2, Bool.false_eq_true, if_false, hok]

theorem runSync_eq_err (env : SyncEnv) (db : List PriceRow) (e : String)
    (hk : env.apiKey.isSome = true) (hsk : env.secretKey.isSome = true)
    (hg : tickersToSyncOf env db ≠ [])
    (herr : primaryFetchOf env db = .error e) :
    runSync env db = syncAlpacaErrorResult env db e := by
  obtain ⟨k, hk'⟩ := Option.isSome_iff_exists.mp hk
  obtain ⟨sk, hsk'⟩ := Option.isSome_iff_exists.mp hsk
  have h1 : (getAllUniqueTickers env.holdings).isEmpty = false := by
    apply Bool.eq_false_iff.mpr
    intro hE
    exact hg (tickersToSyncOf_eq_nil_of_no_tickers (List.isEmpty_iff.mp hE))
  have h2 : (tickersToSyncOf env db).isEmpty = false :=
    List.isEmpty_eq_false.mpr hg
  unfold runSync
  rw [hk', hsk']
  simp only [getApiCredentials, h1, h2, Bool.false_eq_true, if_false, herr]

theorem foldl_yahooStep_calls (env : SyncEnv) (s e : Nat) :
    ∀ (l : List String) (acc : YahooAcc),
      (l.foldl (yahooStep env s e) acc).calls = acc.calls ++ l := by
  intro l
  induction l with
  | nil => intro acc; simp
  | cons t l ih =>
    intro acc
    rw [List.foldl_cons, ih]
    simp [yahooStep]

theorem mem_recordsOf {tns : List (String × List Nat)} {bars : BarMap}
    {rec : PriceRecord} :
    rec ∈ recordsOf tns bars ↔
      ∃ p ∈ tns, ∃ bar ∈ lookupBars bars p.1,
        dayOfTs bar.t ∈ p.2 ∧ rec = recordOfBar p.1 (dayOfTs bar.t) bar := by
  unfold recordsOf
  rw [List.mem_flatMap]
  constructor
  · rintro ⟨p, hp, hrec⟩
    rw [List.mem_filterMap] at hrec
    obtain ⟨bar, hbar, hb⟩ := hrec
    by_cases hd : dayOfTs bar.t ∈ p.2
    · rw [if_pos hd] at hb
      injection hb with hb'
      exact ⟨p, hp, bar, hbar, hd, hb'.symm⟩
    · rw [if_neg hd] at hb
      exact absurd hb (by simp)
  · rintro ⟨p, hp, bar, hbar, hd, hrec⟩
    refine ⟨p, hp, ?_⟩
    rw [List.mem_filterMap]
    exact ⟨bar, hbar, by rw [if_pos hd, hrec]⟩

theorem headD_insertionSort_min (l : List Nat) (h : l ≠ []) :
    ((List.insertionSort (· ≤ ·) l).headD 0) ∈ l
    ∧ ∀ d ∈ l, ((List.insertionSort (· ≤ ·) l).headD 0) ≤ d := by
  have hperm := List.perm_insertionSort (· ≤ ·) l
  have hsorted := List.sorted_insertionSort (· ≤ ·) l
  cases hS : List.insertionSort (· ≤ ·) l with
  | nil =>
    rw [hS] at hperm
    exact absurd (hperm.symm.eq_nil) h
  | cons a tl =>
    rw [hS] at hperm hsorted
    rw [List.sorted_cons] at hsorted
    rw [List.headD_cons]
    constructor
    · exact hperm.subset (List.mem_cons_self a tl)
    · intro d hd
      rcases List.mem_cons.mp (hperm.symm.subset hd) with h1 | h2
      · exact Nat.le_of_eq h1.symm
      · exact hsorted.1 d h2

theorem allMissingDatesOf_ne_nil (env : SyncEnv) (db : List PriceRow)
    (hg : tickersToSyncOf env db ≠ []) : allMissingDatesOf env db ≠ [] := by
  obtain ⟨p, hp⟩ := List.exists_mem_of_ne_nil _ hg
  have hne := (mem_tickersToSyncOf.mp hp).2.2
  obtain ⟨d, hd⟩ := List.exists_mem_of_ne_nil _ hne
  intro hcon
  have : d ∈ allMissingDatesOf env db := by
    unfold allMissingDatesOf
    rw [List.mem_flatMap]
    exact ⟨p, hp, hd⟩
  rw [hcon] at this
  exact absurd this (List.not_mem_nil d)

/-! ## Claim theorems for the sync orchestrator and providers -/

/-- C10: with either credential unset, `runSync` produces the failure
envelope (success `false`, HTTP 500, an error message) and leaves the
store untouched without issuing any provider call — in particular the
empty-ticker-set success no-op is not reachable without credentials. -/
theorem claim_C10_credentials_checked_first (env : SyncEnv) (db : List PriceRow)
    (h : env.apiKey = none ∨ env.secretKey = none) :
    (runSync env db).resp.success = false
    ∧ (runSync env db).resp.status = 500
    ∧ (runSync env db).db = db
    ∧ (runSync env db).alpacaCalls = []
    ∧ (runSync env db).yahooCalls = []
    ∧ (runSync env db).resp.errorMsg.isSome = true := by
  have hfail : ∃ msg, runSync env db = syncFailResult db msg := by
    rcases h with h | h
    · exact ⟨_, by unfold runSync; rw [h]; rfl⟩
    · cases hk : env.apiKey with
      | none => exact ⟨_, by unfold runSync; rw [hk]; rfl⟩
      | some k => exact ⟨_, by unfold runSync; rw [hk, h]; rfl⟩
  obtain ⟨msg, hmsg⟩ := hfail
  rw [hmsg]
  exact ⟨rfl, rfl, rfl, rfl, rfl, rfl⟩

/-- Witness for C10: no API key and an empty holdings table still
produce the 500 failure envelope, not the empty-ticker success
no-op. -/
theorem claim_C10_witness :
    ((runSync wEnvNoKey []).resp.success = false
      ∧ (runSync wEnvNoKey []).resp.status = 500
      ∧ (runSync wEnvNoKey []).db = []
      ∧ (runSync wEnvNoKey []).alpacaCalls = []
      ∧ (runSync wEnvNoKey []).yahooCalls = []
      ∧ (runSync wEnvNoKey []).resp.errorMsg.isSome = true)
    ∧ getAllUniqueTickers wEnvNoKey.holdings = [] :=
  ⟨claim_C10_credentials_checked_first wEnvNoKey [] (Or.inl rfl), by decide⟩

/-- Counterexample for C5 as stated: the fetch the code performs is
already in its only designated feed — every request parameter block
carries `feed = "iex"` — and a non-2xx response there is raised as an
error, not turned into an empty result set. -/
theorem claim_C5_counterexample :
    (alpacaRequestParams ["A"] 20454 20458 none).feed = "iex"
    ∧ fetchBarsFromAlpaca ["A"] [wPageErr]
        = .error "Alpaca API error (403): forbidden"
    ∧ fetchBarsFromAlpaca ["A"] [wPageErr] ≠ .ok [] := by
  refine ⟨rfl, rfl, ?_⟩
  intro hcon
  simp [fetchBarsFromAlpaca, fetchBarsFromAlpacaGo, wPageErr] at hcon

/-- C5 (amended): a non-2xx response from the primary provider is
always fatal: the fetch raises `Alpaca API error (status): body`
whatever the request was, the sync run maps it to the 500 failure
envelope and persists nothing; the code has no secondary feed mode —
every primary request carries the fixed `feed = "iex"` — so no mode
turns a non-2xx response into an empty result set. -/
theorem claim_C5_primary_error_always_fatal_amended :
    (∀ (tickers : List String) (p : AlpacaPage) (rest : List AlpacaPage),
        p.ok = false →
          fetchBarsFromAlpaca tickers (p :: rest)
            = .error ("Alpaca API error (" ++ toString p.status ++ "): " ++ p.errorText))
    ∧ (∀ (tickers : List String) (s e : Nat) (tok : Option String),
        (alpacaRequestParams tickers s e tok).feed = "iex")
    ∧ (∀ (env : SyncEnv) (db : List PriceRow) (e : String),
        env.apiKey.isSome = true → env.secretKey.isSome = true →
        tickersToSyncOf env db ≠ [] →
        primaryFetchOf env db = .error e →
          (runSync env db).resp.success = false
          ∧ (runSync env db).resp.status = 500
          ∧ (runSync env db).db = db
          ∧ (runSync env db).resp.errorMsg = some e) := by
  refine ⟨?_, fun tickers s e tok => rfl, ?_⟩
  · intro tickers p rest hp
    unfold fetchBarsFromAlpaca fetchBarsFromAlpacaGo
    rw [hp]
    rfl
  · intro env db e hk hsk hg herr
    rw [runSync_eq_err env db e hk hsk hg herr]
    exact ⟨rfl, rfl, rfl, rfl⟩

/-- Witness for C5: the amended behaviour at the concrete environment
`wEnvErr`, whose primary provider answers 403. -/
theorem claim_C5_witness :
    (fetchBarsFromAlpaca ["A"] [wPageErr]
        = .error ("Alpaca API error (" ++ toString wPageErr.status ++ "): "
            ++ wPageErr.errorText))
    ∧ ((runSync wEnvErr []).resp.success = false
        ∧ (runSync wEnvErr []).resp.status = 500
        ∧ (runSync wEnvErr []).db = []
        ∧ (runSync wEnvErr []).resp.errorMsg
            = some "Alpaca API error (403): forbidden") :=
  ⟨claim_C5_primary_error_always_fatal_amended.1 ["A"] wPageErr [] rfl,
   claim_C5_primary_error_always_fatal_amended.2.2 wEnvErr [] "Alpaca API error (403): forbidden"
     rfl rfl (by decide) rfl⟩

theorem yahooBarAt_some {timestamps : List Nat} {q : YahooQuote} {i : Nat}
    {b : AlpacaBar} (h : yahooBarAt timestamps q i = some b) :
    b.n = some 0 ∧ b.vw = some 0
    ∧ b.v = ((q.volume.get? i).getD none).getD 0 := by
  unfold yahooBarAt at h
  split at h
  · injection h with h'
    subst h'
    exact ⟨rfl, rfl, rfl⟩
  · exact absurd h (by simp)

theorem mem_fetchBarsFromYahoo_ok {data : YahooChartResponse} {b : AlpacaBar}
    (hb : b ∈ fetchBarsFromYahoo (.ok data)) :
    ∃ result ∈ (data.chart.result.getD []), ∃ q ∈ result.quote.take 1, ∃ i,
      yahooBarAt (result.timestamp.getD []) q i = some b := by
  simp only [fetchBarsFromYahoo] at hb
  split at hb
  · exact absurd hb (by simp)
  · split at hb
    · exact absurd hb (by simp)
    · exact absurd hb (by simp)
    · rename_i result tail heq
      split at hb
      · exact absurd hb (by simp)
      · rename_i q qs hq
        rw [List.mem_filterMap] at hb
        obtain ⟨i, _, hbar⟩ := hb
        exact ⟨result, by simp [heq], q, by simp [hq], i, hbar⟩

/-- Counterexample for C3 as stated: a fallback bar with a null volume
slot gets volume 0 as claimed, but its vwap and trade count are the
number zero, and the record builder stores them as 0, not as null. -/
theorem claim_C3_counterexample :
    fetchBarsFromYahoo (.ok wYahooData) = [wYahooBar]
    ∧ wYahooBar.vw = some 0
    ∧ wYahooBar.n = some 0
    ∧ wYahooBar.v = 0
    ∧ (recordOfBar "A" (dayOfTs wYahooBar.t) wYahooBar).vwap = some 0
    ∧ (recordOfBar "A" (dayOfTs wYahooBar.t) wYahooBar).trade_count = some 0
    ∧ (recordOfBar "A" (dayOfTs wYahooBar.t) wYahooBar).vwap ≠ none := by
  decide

/-- C3 (amended): every bar obtained from the fallback provider has an
absent volume normalized to the number 0, and its vwap and trade
count — which the fallback provider cannot supply — populated as the
number 0; the record builder's `?? null` keeps them as 0, so they are
stored as zero, not as absent. -/
theorem claim_C3_fallback_normalization_amended :
    (∀ (outcome : YahooOutcome) (b : AlpacaBar), b ∈ fetchBarsFromYahoo outcome →
        b.n = some 0 ∧ b.vw = some 0
        ∧ (∀ tk d, (recordOfBar tk d b).vwap = some 0
            ∧ (recordOfBar tk d b).trade_count = some 0))
    ∧ (∀ (timestamps : List Nat) (q : YahooQuote) (i : Nat) (b : AlpacaBar),
        yahooBarAt timestamps q i = some b →
        (q.volume.get? i).getD none = none → b.v = 0) := by
  constructor
  · intro outcome b hb
    cases outcome with
    | fetchFailed => exact absurd hb (by simp [fetchBarsFromYahoo])
    | httpError status => exact absurd hb (by simp [fetchBarsFromYahoo])
    | ok data =>
      obtain ⟨result, _, q, _, i, hbar⟩ := mem_fetchBarsFromYahoo_ok hb
      obtain ⟨h1, h2, _⟩ := yahooBarAt_some hbar
      exact ⟨h1, h2, fun tk d => ⟨h2, h1⟩⟩
  · intro timestamps q i b hbar hvol
    have h3 := (yahooBarAt_some hbar).2.2
    rw [hvol] at h3
    exact h3

/-- Witness for C3: the amended normalization at the concrete parsed
body `wYahooData`, whose single bar has a null volume slot. -/
theorem claim_C3_witness :
    (wYahooBar.n = some 0 ∧ wYahooBar.vw = some 0
      ∧ (∀ tk d, (recordOfBar tk d wYahooBar).vwap = some 0
          ∧ (recordOfBar tk d wYahooBar).trade_count = some 0))
    ∧ wYahooBar.v = 0 :=
  ⟨claim_C3_fallback_normalization_amended.1 (.ok wYahooData) wYahooBar (by decide),
   claim_C3_fallback_normalization_amended.2 [1767225600]
     { open_ := [some 10], high := [some 12], low := [some 9],
       close := [some 11], volume := [none] }
     0 wYahooBar (by decide) (by decide)⟩

/-- C1: in a sync run with at least one gapped ticker, `runSync`
issues exactly one primary range query — all gapped tickers, from the
chronologically earliest missing date across all of them through
today; each gapped ticker's list is its own computed gap; every upsert
record's date lies in its own ticker's gap (bars outside it are
discarded); and every fetched bar whose date lies in the ticker's gap
does become an upsert record. -/
theorem claim_C1_single_range_query_and_gap_filter (env : SyncEnv)
    (db : List PriceRow)
    (hk : env.apiKey.isSome = true) (hsk : env.secretKey.isSome = true)
    (hg : tickersToSyncOf env db ≠ []) :
    (runSync env db).alpacaCalls
        = [(tickersNeedingDataOf env db, earliestMissingOf env db, getTodayDate env.now)]
    ∧ earliestMissingOf env db ∈ allMissingDatesOf env db
    ∧ (∀ d ∈ allMissingDatesOf env db, earliestMissingOf env db ≤ d)
    ∧ (∀ p ∈ tickersToSyncOf env db, p.2 = gapOf env db p.1)
    ∧ (∀ rec ∈ (runSync env db).records,
        rec.date ∈ gapOf env db rec.ticker
        ∧ ∃ p ∈ tickersToSyncOf env db, rec.ticker = p.1)
    ∧ (∀ p ∈ tickersToSyncOf env db,
        ∀ bar ∈ lookupBars (runSync env db).barsUsed p.1,
          dayOfTs bar.t ∈ p.2 →
            recordOfBar p.1 (dayOfTs bar.t) bar ∈ (runSync env db).records) := by
  have hmin := headD_insertionSort_min (allMissingDatesOf env db)
    (allMissingDatesOf_ne_nil env db hg)
  have hown : ∀ p ∈ tickersToSyncOf env db, p.2 = gapOf env db p.1 :=
    fun p hp => (mem_tickersToSyncOf.mp hp).2.1
  cases hfetch : primaryFetchOf env db with
  | error e =>
    rw [runSync_eq_err env db e hk hsk hg hfetch]
    refine ⟨rfl, hmin.1, hmin.2, hown, ?_, ?_⟩
    · intro rec hrec
      exact absurd hrec (List.not_mem_nil rec)
    · intro p hp bar hbar
      exact absurd hbar (List.not_mem_nil bar)
  | ok bars0 =>
    rw [runSync_eq_ok env db bars0 hk hsk hg hfetch]
    refine ⟨rfl, hmin.1, hmin.2, hown, ?_, ?_⟩
    · intro rec hrec
      have hrec' : rec ∈ recordsOf (tickersToSyncOf env db)
          ((syncResultOk env db bars0).barsUsed) := hrec
      obtain ⟨p, hp, bar, hbar, hd, hreceq⟩ := mem_recordsOf.mp hrec'
      have hgap := hown p hp
      subst hreceq
      refine ⟨?_, p, hp, rfl⟩
      show dayOfTs bar.t ∈ gapOf env db p.1
      rw [← hgap]
      exact hd
    · intro p hp bar hbar hd
      exact mem_recordsOf.mpr ⟨p, hp, bar, hbar, hd, rfl⟩

/-- Witness for C1: the concrete environment `wEnv` (ticker `A`, empty
store, invocation day 20458) issues the single range query
`(["A"], 20454, 20458)`, and each stored record's date lies in the
ticker's own gap (the Saturday bar is discarded). -/
theorem claim_C1_witness :
    (runSync wEnv []).alpacaCalls = [(["A"], 20454, 20458)]
    ∧ (∀ rec ∈ (runSync wEnv []).records,
        rec.date ∈ gapOf wEnv [] rec.ticker
        ∧ ∃ p ∈ tickersToSyncOf wEnv [], rec.ticker = p.1) := by
  have h := claim_C1_single_range_query_and_gap_filter wEnv [] rfl rfl (by decide)
  refine ⟨?_, h.2.2.2.2.1⟩
  rw [h.1]
  decide

/-- C4: the fallback provider is queried exactly for the tickers whose
primary fetch returned zero bars, one ticker per call, the run still
succeeds whatever the fallback outcomes are, and every fallback
failure mode — thrown fetch, non-2xx response, body-level error, or
missing/empty result — yields the empty bar list rather than an
error. -/
theorem claim_C4_fallback_only_for_zero_bar_tickers (env : SyncEnv)
    (db : List PriceRow) (bars0 : BarMap)
    (hk : env.apiKey.isSome = true) (hsk : env.secretKey.isSome = true)
    (hg : tickersToSyncOf env db ≠ [])
    (hok : primaryFetchOf env db = .ok bars0) :
    (runSync env db).yahooCalls
        = (tickersNeedingDataOf env db).filter (fun tk => (lookupBars bars0 tk).isEmpty)
    ∧ (runSync env db).resp.success = true
    ∧ (runSync env db).resp.status = 200
    ∧ fetchBarsFromYahoo .fetchFailed = []
    ∧ (∀ status, fetchBarsFromYahoo (.httpError status) = [])
    ∧ (∀ data, data.chart.error.isSome = true → fetchBarsFromYahoo (.ok data) = [])
    ∧ (∀ data, data.chart.result = none → fetchBarsFromYahoo (.ok data) = [])
    ∧ (∀ data, data.chart.result = some [] → fetchBarsFromYahoo (.ok data) = []) := by
  rw [runSync_eq_ok env db bars0 hk hsk hg hok]
  refine ⟨?_, rfl, rfl, rfl, fun status => rfl, ?_, ?_, ?_⟩
  · have hcalls : (syncResultOk env db bars0).yahooCalls
        = (List.foldl
            (yahooStep env (earliestMissingOf env db) (getTodayDate env.now))
            { bars := bars0, fetched := [], calls := [] }
            (((tickersToSyncOf env db).map (fun p => p.1)).filter
              (fun tk => (lookupBars bars0 tk).isEmpty))).calls := rfl
    rw [hcalls, foldl_yahooStep_calls]
    simp [tickersNeedingDataOf]
  · intro data h
    simp only [fetchBarsFromYahoo]
    rw [if_pos h]
  · intro data h
    simp only [fetchBarsFromYahoo]
    split
    · rfl
    · rw [h]
  · intro data h
    simp only [fetchBarsFromYahoo]
    split
    · rfl
    · rw [h]

/-- Witness for C4: in `wEnvTwo` the primary provider returns bars
only for `A`, so the fallback is called exactly for `B`, its 404
outcome yields no data, and the run still succeeds. -/
theorem claim_C4_witness :
    (runSync wEnvTwo []).yahooCalls = ["B"]
    ∧ (runSync wEnvTwo []).resp.success = true
    ∧ fetchBarsFromYahoo (.httpError 404) = [] := by
  have h := claim_C4_fallback_only_for_zero_bar_tickers wEnvTwo []
    [("A", [wBarThu]), ("B", [])] rfl rfl (by decide) rfl
  refine ⟨?_, h.2.1, h.2.2.2.2.1 404⟩
  rw [h.1]
  decide

/-- C9: `insertPriceHistoryBatch` returns the total number of records
in the batch — conflict-updates count exactly like fresh inserts — and
consequently the sync summary's `synced` (and `recordsFound`) equal
the number of filtered records. -/
theorem claim_C9_batch_count_equals_records :
    (∀ (db : List PriceRow) (rs : List PriceRecord) (now : Timestamp),
        (insertPriceHistoryBatch db rs now).1 = rs.length)
    ∧ (∀ (env : SyncEnv) (db : List PriceRow) (bars0 : BarMap),
        env.apiKey.isSome = true → env.secretKey.isSome = true →
        tickersToSyncOf env db ≠ [] → primaryFetchOf env db = .ok bars0 →
          (runSync env db).resp.synced = (runSync env db).records.length
          ∧ (runSync env db).resp.recordsFound = (runSync env db).records.length) := by
  refine ⟨fun db rs now => insertPriceHistoryBatch_fst rs db now, ?_⟩
  intro env db bars0 hk hsk hg hok
  rw [runSync_eq_ok env db bars0 hk hsk hg hok]
  exact ⟨insertPriceHistoryBatch_fst _ db env.now, rfl⟩

/-- Witness for C9: the batch count equals the batch size both for a
fresh insert and for a pure overwrite, and the concrete sync run on
`wEnv` reports `synced` equal to its record count. -/
theorem claim_C9_witness :
    (insertPriceHistoryBatch [] [wRecord] 0).1 = 1
    ∧ (insertPriceHistoryBatch (insertPriceHistoryBatch [] [wRecord] 0).2 [wRecord] 1).1 = 1
    ∧ (runSync wEnv []).resp.synced = (runSync wEnv []).records.length :=
  ⟨claim_C9_batch_count_equals_records.1 [] [wRecord] 0,
   claim_C9_batch_count_equals_records.1 (insertPriceHistoryBatch [] [wRecord] 0).2 [wRecord] 1,
   (claim_C9_batch_count_equals_records.2 wEnv [] [("A", [wBarThu, wBarSat])]
     rfl rfl (by decide) rfl).1⟩

end MiniPortfolio
